import Mathlib

/-!
Shallow embedding of `mpf/devices/score_reel_controller.py`
(class `ScoreReelController`) and, for the ball-device scenario, a model of
the smart-virtual ball device built from the spec (its implementation is not
part of the sources, only its test is).

Device methods (`set_value`, `add_value`, `light`, `unlight`) and queue-token
methods (`wait`, `clear`) are external calls; the embedding records them in a
command trace (`Cmd`).  The controller's own mutable fields
(`active_scorereelgroup`, `player_to_scorereel_map`, `reset_queue`, `queue`)
are the state.  Event-handler registrations made through
`machine.events.add_handler` / `remove_handler` for `_reset_next_group` are
tracked as the list of event names the method is registered for.  A Python
`IndexError` / `AttributeError` is modelled by `Option` (`none` = raise).
-/

namespace Mpf

/-- A configured `ScoreReelGroup`: its name, its config tags, and the value
the controller reads back as `assumed_value_int`. -/
structure Group where
  name : String
  tags : List String
  assumed_value_int : Int
deriving DecidableEq

/-- External calls the controller makes, in order. -/
inductive Cmd where
  | queueWait (tok : Nat)
  | queueClear (tok : Nat)
  | setValue (group : String) (v : Int)
  | addValue (group : String) (value : Int) (target : Int)
  | light (group : String)
  | unlight (group : String)
deriving DecidableEq

/-- The parts of `self.machine` the controller reads: the configured score
reel groups (in configuration order) and the current game's player data. -/
structure Machine where
  score_reel_groups : List Group
  player_list_len : Nat
  player_index : Nat
  player_number : Nat
  player_score : Int
deriving DecidableEq

/-- The controller's mutable fields (`__init__`), plus the set of event names
`_reset_next_group` is currently registered for. -/
structure ControllerState where
  active_scorereelgroup : Option Group
  player_to_scorereel_map : List Group
  reset_queue : List Group
  queue : Option Nat
  handlers : List String
deriving DecidableEq

/-- State after `__init__`: no active group, empty map, empty reset queue,
no queue token, no `_valid` handlers. -/
def initial_state : ControllerState :=
  { active_scorereelgroup := none
    player_to_scorereel_map := []
    reset_queue := []
    queue := none
    handlers := [] }

/-- `DeviceCollection.items_tagged(tag)`: the configured groups whose tag
list contains `tag`, in configuration order. -/
def items_tagged (groups : List Group) (tag : String) : List Group :=
  groups.filter (fun g => g.tags.contains tag)

/-- `ScoreReelController.map_new_score_reel_group`: bind the current player
to the first group tagged `"player" + player.number`; if none is tagged,
append `player_to_scorereel_map[0]` (raising `IndexError` — `none` — when the
map is empty). -/
def map_new_score_reel_group (m : Machine) (s : ControllerState) :
    Option ControllerState :=
  match items_tagged m.score_reel_groups
      ("player" ++ toString m.player_number) with
  | g :: _ =>
      some { s with player_to_scorereel_map := s.player_to_scorereel_map ++ [g] }
  | [] =>
      match s.player_to_scorereel_map with
      | g0 :: _ =>
          some { s with player_to_scorereel_map := s.player_to_scorereel_map ++ [g0] }
      | [] => none

/-- `ScoreReelController.rotate_player`: if the map is shorter than the
player list, create a new mapping; then make `map[player.index]` the active
group, command it to the player's score when its assumed value differs,
unlight every configured group and light the active one. -/
def rotate_player (m : Machine) (s : ControllerState) :
    Option (ControllerState × List Cmd) :=
  (if s.player_to_scorereel_map.length < m.player_list_len
   then map_new_score_reel_group m s
   else some s).bind fun s1 =>
    (s1.player_to_scorereel_map[m.player_index]?).map fun active =>
      ({ s1 with active_scorereelgroup := some active },
        (if active.assumed_value_int ≠ m.player_score
         then [Cmd.setValue active.name m.player_score] else [])
        ++ m.score_reel_groups.map (fun g => Cmd.unlight g.name)
        ++ [Cmd.light active.name])

/-- `ScoreReelController.score_change(value, change)`: when there is an
active group and `change` is truthy (nonzero), call
`add_value(value=change, target=value)` on it; otherwise do nothing. -/
def score_change (value change : Int) (s : ControllerState) : List Cmd :=
  match s.active_scorereelgroup with
  | some g => if change ≠ 0 then [Cmd.addValue g.name change value] else []
  | none => []

/-- The event name `'scorereelgroup_' + name + '_valid'`. -/
def valid_event (gname : String) : String :=
  "scorereelgroup_" ++ gname ++ "_valid"

/-- `ScoreReelController._reset_next_group(value=0)`: pop the next group off
the reset queue, register for its `_valid` event and command `set_value(value)`
on it; when the queue is empty, `clear()` the held token, drop it and remove
every registration of `_reset_next_group` (`none` models the `AttributeError`
of `self.queue.clear()` when no token is held). -/
def reset_next_group (value : Int) (s : ControllerState) :
    Option (ControllerState × List Cmd) :=
  match s.reset_queue with
  | next_group :: rest =>
      some ({ s with
                reset_queue := rest
                handlers := s.handlers ++ [valid_event next_group.name] },
            [Cmd.setValue next_group.name value])
  | [] =>
      match s.queue with
      | some tok =>
          some ({ s with queue := none, handlers := [] },
                [Cmd.queueClear tok])
      | none => none

/-- Comparison used by `reset_queue.sort(key=lambda x: x.name)`: Python
compares strings lexicographically by code point, i.e. by the order on the
underlying character lists. -/
def nameLe (a b : Group) : Prop := a.name.data ≤ b.name.data

instance : DecidableRel nameLe :=
  fun a b => (inferInstance : Decidable (a.name.data ≤ b.name.data))

instance : IsTotal Group nameLe := ⟨fun a b => le_total a.name.data b.name.data⟩

instance : IsTrans Group nameLe := ⟨fun _ _ _ hab hbc => le_trans hab hbc⟩

/-- The reset queue built by `game_starting`: all configured groups sorted
ascending by name (`reset_queue.sort(key=lambda x: x.name)`, a stable sort). -/
def sortByName (groups : List Group) : List Group :=
  List.insertionSort nameLe groups

/-- `ScoreReelController.game_starting(queue, game)`: hold the token, call
`wait()` on it, rebuild the reset queue as all configured groups sorted by
name, then kick off `_reset_next_group()` (default value `0`). -/
def game_starting (m : Machine) (tok : Nat) (s : ControllerState) :
    Option (ControllerState × List Cmd) :=
  (reset_next_group 0
      { s with queue := some tok
               reset_queue := sortByName m.score_reel_groups }).map
    fun r => (r.1, Cmd.queueWait tok :: r.2)

/-- Delivery of a group's `scorereelgroup_<name>_valid` event carrying
`value`: the dispatcher invokes `_reset_next_group` when it is registered for
that event name (within one cycle each name is registered at most once), and
does nothing otherwise. -/
def deliver_valid (gname : String) (value : Int) (s : ControllerState) :
    Option (ControllerState × List Cmd) :=
  if valid_event gname ∈ s.handlers then reset_next_group value s
  else some (s, [])

/-- Deliver, in order, one `_valid` confirmation (with the default payload
`0`) per named group. -/
def fire_confirmations : List String → ControllerState →
    Option (ControllerState × List Cmd)
  | [], s => some (s, [])
  | n :: rest, s =>
      (deliver_valid n 0 s).bind fun r =>
        (fire_confirmations rest r.1).map fun r2 => (r2.1, r.2 ++ r2.2)

/-- A full reset cycle: `game_starting`, then every commanded group confirms
`_valid` exactly once, in the order the groups were commanded. -/
def run_cycle (m : Machine) (tok : Nat) (s : ControllerState) :
    Option (ControllerState × List Cmd) :=
  (game_starting m tok s).bind fun r =>
    (fire_confirmations
        ((sortByName m.score_reel_groups).map (fun g => g.name)) r.1).map
      fun r2 => (r2.1, r.2 ++ r2.2)

/-- The machine seen by the handler for the turn of player index `idx`
(`player.number` is the 1-based display number `idx + 1`). -/
def mkMachine (groups : List Group) (numPlayers idx num : Nat) : Machine :=
  { score_reel_groups := groups, player_list_len := numPlayers,
    player_index := idx, player_number := num, player_score := 0 }

/-- Fire `player_turn_started` once per listed player index, in order. -/
def run_turns (groups : List Group) (numPlayers : Nat) :
    List Nat → ControllerState → Option ControllerState
  | [], s => some s
  | i :: rest, s =>
      (rotate_player (mkMachine groups numPlayers i (i + 1)) s).bind fun r =>
        run_turns groups numPlayers rest r.1

/-- Effect of a command trace on which groups are lit: `light()` / `unlight()`
toggle a group's lamp by name, other commands leave lighting unchanged. -/
def apply_light : List Cmd → (String → Bool) → String → Bool
  | [], f => f
  | Cmd.light g :: rest, f => apply_light rest (fun n => if n = g then true else f n)
  | Cmd.unlight g :: rest, f => apply_light rest (fun n => if n = g then false else f n)
  | _ :: rest, f => apply_light rest f

/-- Modelled from the spec: the smart-virtual ball-holding device (`balls`,
`available_balls`, `eject()` and the simulated transit delay) is not among the
source files — only its test `test_BallDevice_SmartVirtual.py` is.  Per the
spec, an eject request immediately decrements `available_balls` (reserving the
ball) and leaves `balls` unchanged until the simulated transit delay elapses,
at which point `balls` decrements too; a switch hit adds one present,
available ball. -/
structure BallDevice where
  balls : Nat
  available_balls : Nat
  pending_ejects : Nat
deriving DecidableEq

/-- A ball lands on one of the device's switches: one more ball is physically
present and available. -/
def switch_hit (d : BallDevice) : BallDevice :=
  { d with balls := d.balls + 1, available_balls := d.available_balls + 1 }

/-- `eject()`: reserve one ball now; the physical departure is pending. -/
def eject (d : BallDevice) : BallDevice :=
  { d with available_balls := d.available_balls - 1,
           pending_ejects := d.pending_ejects + 1 }

/-- The simulated transit delay of one pending eject elapses: the ball is
physically gone. -/
def transit_delay (d : BallDevice) : BallDevice :=
  if d.pending_ejects = 0 then d
  else { d with balls := d.balls - 1, pending_ejects := d.pending_ejects - 1 }

/-! ### Concrete fixtures -/

/-- Group named `"a"`, tagged for player 1. -/
def ga : Group := { name := "a", tags := ["player1"], assumed_value_int := 0 }

/-- Group named `"b"`, tagged for player 2. -/
def gb : Group := { name := "b", tags := ["player2"], assumed_value_int := 0 }

/-- Group named `"c"`, untagged. -/
def gc : Group := { name := "c", tags := [], assumed_value_int := 0 }

/-- A machine with the three groups configured out of name order. -/
def mA : Machine :=
  { score_reel_groups := [gc, ga, gb], player_list_len := 1,
    player_index := 0, player_number := 1, player_score := 0 }

/-- A state in the middle of a reset cycle: token `1` held, groups `"b"` and
`"c"` still queued, `"a"` already commanded (its handler registered). -/
def sMid : ControllerState :=
  { active_scorereelgroup := none, player_to_scorereel_map := [],
    reset_queue := [gb, gc], queue := some 1,
    handlers := [valid_event ("a")] }

/-- Trace of the full reset cycle of `mA` with token `1`. -/
def trA : List Cmd :=
  [Cmd.queueWait 1, Cmd.setValue ("a") 0, Cmd.setValue ("b") 0,
   Cmd.setValue ("c") 0, Cmd.queueClear 1]

/-- Two-player machine during the first player's turn; `"a"` is tagged
`player1`. -/
def mC2 : Machine :=
  { score_reel_groups := [ga, gb], player_list_len := 2,
    player_index := 0, player_number := 1, player_score := 0 }

/-- Single-player machine whose only group is tagged `player2`: nothing is
tagged for player number 1. -/
def mC6 : Machine :=
  { score_reel_groups := [gb], player_list_len := 1,
    player_index := 0, player_number := 1, player_score := 0 }

/-- Single-player machine with the single group `"a"`. -/
def mW2 : Machine :=
  { score_reel_groups := [ga], player_list_len := 1,
    player_index := 0, player_number := 1, player_score := 0 }

/-- State in which the single player is already bound to `"a"`. -/
def sW2 : ControllerState :=
  { active_scorereelgroup := none, player_to_scorereel_map := [ga],
    reset_queue := [], queue := none, handlers := [] }

/-- `sW2` after a repeat `rotate_player`: only the active pointer moved. -/
def sW2' : ControllerState :=
  { sW2 with active_scorereelgroup := some ga }

/-- Commands of that repeat rotation: re-light only, no value change. -/
def trW2 : List Cmd := [Cmd.unlight ("a"), Cmd.light ("a")]

/-- Two-player machine during player 2's first turn; `"b"` is tagged
`player2`. -/
def mW3 : Machine :=
  { score_reel_groups := [ga, gb], player_list_len := 2,
    player_index := 1, player_number := 2, player_score := 0 }

/-- State where player index 0 is bound to `"a"`. -/
def sW3 : ControllerState :=
  { active_scorereelgroup := none, player_to_scorereel_map := [ga],
    reset_queue := [], queue := none, handlers := [] }

/-- `sW3` after binding player 2 to the tagged group `"b"`. -/
def sW3' : ControllerState :=
  { sW3 with player_to_scorereel_map := [ga, gb] }

/-- Result state of a mid-cycle `game_starting` on `sMid` with token `2`:
the old token `1` is gone, `"a"`'s handler is now registered twice. -/
def sC5 : ControllerState :=
  { active_scorereelgroup := none, player_to_scorereel_map := [],
    reset_queue := [gb, gc], queue := some 2,
    handlers := [valid_event ("a"), valid_event ("a")] }

/-- Commands of that mid-cycle `game_starting`: no `clear()` of token `1`. -/
def trC5 : List Cmd := [Cmd.queueWait 2, Cmd.setValue ("a") 0]

/-- A state with an active group, for the no-op score-change witness. -/
def sW7 : ControllerState :=
  { active_scorereelgroup := some ga, player_to_scorereel_map := [],
    reset_queue := [], queue := none, handlers := [] }

/-- Two-player machine, player 1's turn with a stored score of `5`. -/
def mW8 : Machine :=
  { score_reel_groups := [ga, gb], player_list_len := 2,
    player_index := 0, player_number := 1, player_score := 5 }

/-- State where both players are already bound. -/
def sW8 : ControllerState :=
  { active_scorereelgroup := none, player_to_scorereel_map := [ga, gb],
    reset_queue := [], queue := none, handlers := [] }

/-- `sW8` after `rotate_player` under `mW8`. -/
def sW8' : ControllerState :=
  { sW8 with active_scorereelgroup := some ga }

/-- Commands of that rotation: sync `"a"` to score `5`, re-light. -/
def trW8 : List Cmd :=
  [Cmd.setValue ("a") 5, Cmd.unlight ("a"), Cmd.unlight ("b"), Cmd.light ("a")]

/-- State after `sMid` receives `"a"`'s confirmation carrying payload `7`:
`"b"` was popped and commanded, its handler registered. -/
def sW10 : ControllerState :=
  { active_scorereelgroup := none, player_to_scorereel_map := [],
    reset_queue := [gc], queue := some 1,
    handlers := [valid_event ("a"), valid_event ("b")] }

/-- The command issued by that confirmation: the payload, not zero. -/
def trW10 : List Cmd := [Cmd.setValue ("b") 7]

/-- An empty trough of the smart-virtual ball-device model. -/
def trough0 : BallDevice :=
  { balls := 0, available_balls := 0, pending_ejects := 0 }

/-- The trough after two switch hits: two balls present and available. -/
def trough2 : BallDevice := switch_hit (switch_hit trough0)

/-! ### Helper lemmas -/

/-- `map_new_score_reel_group`, when it does not raise, appends exactly one
entry to the player map and changes nothing else. -/
lemma map_new_append (m : Machine) (s s1 : ControllerState)
    (h : map_new_score_reel_group m s = some s1) :
    (∃ x, s1.player_to_scorereel_map = s.player_to_scorereel_map ++ [x])
    ∧ s1.active_scorereelgroup = s.active_scorereelgroup
    ∧ s1.reset_queue = s.reset_queue
    ∧ s1.queue = s.queue
    ∧ s1.handlers = s.handlers := by
  unfold map_new_score_reel_group at h
  rcases htag : items_tagged m.score_reel_groups
      ("player" ++ toString m.player_number) with _ | ⟨g, l⟩ <;>
    rw [htag] at h
  · rcases hmap : s.player_to_scorereel_map with _ | ⟨g0, l0⟩ <;> rw [hmap] at h
    · exact absurd h (by simp)
    · cases h
      exact ⟨⟨g0, rfl⟩, rfl, rfl, rfl, rfl⟩
  · cases h
    exact ⟨⟨g, rfl⟩, rfl, rfl, rfl, rfl⟩

/-- Delivering one default-payload confirmation per queued group, starting
from a state whose current group's handler is registered, drains the queue,
commands each queued group to zero in order, and ends with `clear()` and the
removal of every handler. -/
lemma fire_confirmations_spec :
    ∀ (q : List Group) (s : ControllerState) (tok : Nat) (n : String),
      s.reset_queue = q → s.queue = some tok → valid_event n ∈ s.handlers →
      ∃ s', fire_confirmations (n :: q.map (fun g => g.name)) s
          = some (s', q.map (fun g => Cmd.setValue g.name 0) ++ [Cmd.queueClear tok])
        ∧ s'.reset_queue = [] ∧ s'.queue = none ∧ s'.handlers = []
  | [], s, tok, n, hq, htok, hmem => by
      refine ⟨{ s with queue := none, handlers := [] }, ?_, by simpa using hq, rfl, rfl⟩
      simp [fire_confirmations, deliver_valid, hmem, reset_next_group, hq, htok]
  | g :: rest, s, tok, n, hq, htok, hmem => by
      obtain ⟨s', h1, h2, h3, h4⟩ :=
        fire_confirmations_spec rest
          { s with reset_queue := rest,
                   handlers := s.handlers ++ [valid_event g.name] }
          tok g.name rfl htok (by simp)
      refine ⟨s', ?_, h2, h3, h4⟩
      have hstep : deliver_valid n 0 s
          = some ({ s with reset_queue := rest,
                           handlers := s.handlers ++ [valid_event g.name] },
                  [Cmd.setValue g.name 0]) := by
        simp [deliver_valid, hmem, reset_next_group, hq]
      rw [List.map_cons, fire_confirmations, hstep]
      simp [h1]

/-- Characterization of a full reset cycle from any starting state: the trace
is `wait`, one `set_value(0)` per configured group in ascending name order,
then `clear`; afterwards no token is held and no handler is registered. -/
lemma run_cycle_spec (m : Machine) (tok : Nat) (s : ControllerState) :
    ∃ s', run_cycle m tok s
        = some (s', Cmd.queueWait tok
            :: ((sortByName m.score_reel_groups).map (fun g => Cmd.setValue g.name 0)
                ++ [Cmd.queueClear tok]))
      ∧ s'.reset_queue = [] ∧ s'.queue = none ∧ s'.handlers = [] := by
  rcases hs : sortByName m.score_reel_groups with _ | ⟨g, rest⟩
  · refine ⟨{ s with reset_queue := [], queue := none, handlers := [] },
      ?_, rfl, rfl, rfl⟩
    simp [run_cycle, game_starting, reset_next_group, fire_confirmations, hs]
  · obtain ⟨s', h1, h2, h3, h4⟩ :=
      fire_confirmations_spec rest
        { s with queue := some tok, reset_queue := rest,
                 handlers := s.handlers ++ [valid_event g.name] }
        tok g.name rfl rfl (by simp)
    refine ⟨s', ?_, h2, h3, h4⟩
    simp [run_cycle, game_starting, reset_next_group, hs, h1]

lemma apply_light_append (xs ys : List Cmd) (f : String → Bool) :
    apply_light (xs ++ ys) f = apply_light ys (apply_light xs f) := by
  induction xs generalizing f with
  | nil => rfl
  | cons c rest ih => cases c <;> simp [apply_light, ih]

/-- Unlighting every group in a list turns exactly the listed names off. -/
lemma apply_light_unlights (gs : List Group) (f : String → Bool) (n : String) :
    apply_light (gs.map (fun g => Cmd.unlight g.name)) f n
      = if n ∈ gs.map (fun g => g.name) then false else f n := by
  induction gs generalizing f with
  | nil => simp [apply_light]
  | cons g rest ih =>
      simp only [List.map_cons, apply_light, ih]
      by_cases hmem : n ∈ rest.map (fun g => g.name) <;>
        by_cases hg : n = g.name <;> simp [hmem, hg]

/-- One bound turn: when the player map has exactly the already-seated
players and one more player takes a first turn, a successful `rotate_player`
grows the map by one entry. -/
lemma rotate_player_grows_map (m : Machine) (s : ControllerState)
    (r : ControllerState × List Cmd)
    (hlen : s.player_to_scorereel_map.length < m.player_list_len)
    (h : rotate_player m s = some r) :
    r.1.player_to_scorereel_map.length
      = s.player_to_scorereel_map.length + 1 := by
  unfold rotate_player at h
  rw [if_pos hlen] at h
  rcases hmn : map_new_score_reel_group m s with _ | s1 <;> rw [hmn] at h
  · exact absurd h (by simp)
  · obtain ⟨⟨x, hx⟩, -, -, -, -⟩ := map_new_append m s s1 hmn
    rw [Option.some_bind] at h
    rcases hget : s1.player_to_scorereel_map[m.player_index]? with _ | active <;>
      rw [hget] at h
    · exact absurd h (by simp)
    · simp only [Option.map_some', Option.some.injEq] at h
      subst h
      simp [hx]

/-- Running first turns for indices `k, k+1, ..., k+j-1` over a map that
already has `k` entries leaves `k + j` entries. -/
lemma run_turns_length :
    ∀ (j k : Nat) (groups : List Group) (N : Nat) (s s' : ControllerState),
      s.player_to_scorereel_map.length = k → k + j ≤ N →
      run_turns groups N (List.range' k j) s = some s' →
      s'.player_to_scorereel_map.length = k + j
  | 0, k, groups, N, s, s', hk, _, h => by
      have h' : some s = some s' := h
      cases h'
      simpa using hk
  | j + 1, k, groups, N, s, s', hk, hle, h => by
      have h' : (rotate_player (mkMachine groups N k (k + 1)) s).bind
          (fun r => run_turns groups N (List.range' (k + 1) j) r.1) = some s' := h
      rcases hrot : rotate_player (mkMachine groups N k (k + 1)) s with _ | r <;>
        rw [hrot] at h'
      · exact absurd h' (by simp)
      · have hgrow :=
          rotate_player_grows_map (mkMachine groups N k (k + 1)) s r
            (by simp only [mkMachine]; omega) hrot
        have h'' : run_turns groups N (List.range' (k + 1) j) r.1 = some s' := h'
        have hrec := run_turns_length j (k + 1) groups N r.1 s'
          (by omega) (by omega) h''
        omega

/-! ### Claim theorems -/

/-- C1: a reset cycle started by `game_starting`, in which every commanded
group confirms `_valid` exactly once, calls `wait()` on the token before any
reset command, issues exactly one `set_value(0)` per configured group in
ascending order of group name, and calls `clear()` on the token exactly once,
after the last group's confirmation. -/
theorem reset_cycle_waits_resets_in_order_then_clears
    (m : Machine) (tok : Nat) (s : ControllerState) :
    ∃ s', run_cycle m tok s
        = some (s', Cmd.queueWait tok
            :: ((sortByName m.score_reel_groups).map
                  (fun g => Cmd.setValue g.name 0)
                ++ [Cmd.queueClear tok]))
      ∧ (sortByName m.score_reel_groups).Perm m.score_reel_groups
      ∧ (sortByName m.score_reel_groups).Pairwise nameLe
      ∧ (Cmd.queueWait tok
            :: ((sortByName m.score_reel_groups).map
                  (fun g => Cmd.setValue g.name 0)
                ++ [Cmd.queueClear tok])).count (Cmd.queueClear tok) = 1 := by
  obtain ⟨s', h1, -, -, -⟩ := run_cycle_spec m tok s
  refine ⟨s', h1, List.perm_insertionSort nameLe m.score_reel_groups,
    List.sorted_insertionSort nameLe m.score_reel_groups, ?_⟩
  have hnot : Cmd.queueClear tok
      ∉ (sortByName m.score_reel_groups).map (fun g => Cmd.setValue g.name 0) := by
    simp
  simp [List.count_cons, List.count_append, List.count_eq_zero.mpr hnot]

/-- C2 counterexample: in a two-player game, after the first call binds
player index 0 (map length 1), a second `rotate_player` for the same player
index appends another entry (map length 2), because the guard compares the
map's length with the player-list length rather than checking the index. -/
theorem second_turn_call_adds_duplicate_entry :
    (rotate_player mC2 initial_state).map
        (fun r => r.1.player_to_scorereel_map.length) = some 1
    ∧ ((rotate_player mC2 initial_state).bind fun r =>
          rotate_player mC2 r.1).map
        (fun r => r.1.player_to_scorereel_map.length) = some 2 := by decide

/-- C2 amended: the binding step is idempotent only once the map covers every
player — a repeat invocation leaves the map untouched exactly when the map's
length has reached the player-list length (which holds under normal turn
rotation) — and for players taking their first turns in index order `0..N-1`
the map's length equals `N` afterwards. -/
theorem binding_idempotent_once_all_players_bound :
    (∀ (m : Machine) (s s' : ControllerState) (tr : List Cmd),
        m.player_list_len ≤ s.player_to_scorereel_map.length →
        rotate_player m s = some (s', tr) →
        s'.player_to_scorereel_map = s.player_to_scorereel_map)
    ∧ (∀ (groups : List Group) (N : Nat) (s' : ControllerState),
        run_turns groups N (List.range N) initial_state = some s' →
        s'.player_to_scorereel_map.length = N) := by
  constructor
  · intro m s s' tr hlen h
    unfold rotate_player at h
    rw [if_neg (by omega)] at h
    rw [Option.some_bind] at h
    rcases hget : s.player_to_scorereel_map[m.player_index]? with _ | active <;>
      rw [hget] at h
    · exact absurd h (by simp)
    · simp only [Option.map_some', Option.some.injEq, Prod.mk.injEq] at h
      obtain ⟨h1, -⟩ := h
      rw [← h1]
  · intro groups N s' h
    have hrun := run_turns_length N 0 groups N initial_state s' rfl
      (by omega) (by simpa [List.range_eq_range'] using h)
    simpa using hrun

/-- Witness for the amended C2 at a concrete repeat turn. -/
theorem binding_idempotent_once_all_players_bound_witness :
    sW2'.player_to_scorereel_map = sW2.player_to_scorereel_map :=
  binding_idempotent_once_all_players_bound.1 mW2 sW2 sW2' trW2
    (by decide) (by decide)

/-- C3: a successful new binding appends exactly one map entry — the first
group tagged for the player's 1-based number when one exists (no fallback),
otherwise the group at map entry 0 (sharing), which must exist — and changes
no other controller field; the call issues no device command at all. -/
theorem map_new_binds_tagged_or_shares_entry_zero
    (m : Machine) (s s1 : ControllerState)
    (h : map_new_score_reel_group m s = some s1) :
    (∃ x, s1.player_to_scorereel_map = s.player_to_scorereel_map ++ [x]
      ∧ ((∃ l, items_tagged m.score_reel_groups
              ("player" ++ toString m.player_number) = x :: l)
          ∨ (items_tagged m.score_reel_groups
              ("player" ++ toString m.player_number) = []
             ∧ s.player_to_scorereel_map.head? = some x)))
    ∧ s1.active_scorereelgroup = s.active_scorereelgroup
    ∧ s1.reset_queue = s.reset_queue
    ∧ s1.queue = s.queue
    ∧ s1.handlers = s.handlers := by
  unfold map_new_score_reel_group at h
  rcases htag : items_tagged m.score_reel_groups
      ("player" ++ toString m.player_number) with _ | ⟨g, l⟩ <;> rw [htag] at h
  · rcases hmap : s.player_to_scorereel_map with _ | ⟨g0, l0⟩ <;> rw [hmap] at h
    · exact absurd h (by simp)
    · cases h
      exact ⟨⟨g0, rfl, Or.inr ⟨rfl, rfl⟩⟩, rfl, rfl, rfl, rfl⟩
  · cases h
    exact ⟨⟨g, rfl, Or.inl ⟨l, rfl⟩⟩, rfl, rfl, rfl, rfl⟩

/-- Witness for C3: player 2 binds to the tagged group `"b"`. -/
theorem map_new_binds_tagged_or_shares_entry_zero_witness :
    (∃ x, sW3'.player_to_scorereel_map = sW3.player_to_scorereel_map ++ [x]
      ∧ ((∃ l, items_tagged mW3.score_reel_groups
              ("player" ++ toString mW3.player_number) = x :: l)
          ∨ (items_tagged mW3.score_reel_groups
              ("player" ++ toString mW3.player_number) = []
             ∧ sW3.player_to_scorereel_map.head? = some x)))
    ∧ sW3'.active_scorereelgroup = sW3.active_scorereelgroup
    ∧ sW3'.reset_queue = sW3.reset_queue
    ∧ sW3'.queue = sW3.queue
    ∧ sW3'.handlers = sW3.handlers :=
  map_new_binds_tagged_or_shares_entry_zero mW3 sW3 sW3' (by decide)

/-- C4 counterexample: the completion observer is not removed when consumed.
After `game_starting` commands `"a"` and `"a"`'s confirmation advances the
queue to `"b"`, a repeated confirmation from the already-reset `"a"` in the
same cycle advances the queue again — it commands `"c"`. -/
theorem repeated_confirmation_same_cycle_advances_queue :
    (((game_starting mA 1 initial_state).bind fun r =>
        deliver_valid ("a") 0 r.1).bind fun r =>
          (deliver_valid ("a") 0 r.1).map fun r2 => r2.2)
      = some [Cmd.setValue ("c") 0] := by decide

/-- C4 amended: completion observers are device-specific, but they are
removed all at once when the cycle completes, not one by one as consumed;
hence a confirmation arriving after the cycle has completed (e.g. from a
previous cycle) never triggers a queue step, while a repeated confirmation
inside a still-running cycle does. -/
theorem handlers_all_removed_at_cycle_end (m : Machine) (tok : Nat)
    (s s' : ControllerState) (tr : List Cmd)
    (h : run_cycle m tok s = some (s', tr)) :
    s'.handlers = []
    ∧ ∀ gname v, deliver_valid gname v s' = some (s', []) := by
  obtain ⟨s2, h1, -, -, h4⟩ := run_cycle_spec m tok s
  rw [h1] at h
  simp only [Option.some.injEq, Prod.mk.injEq] at h
  obtain ⟨hs, -⟩ := h
  subst hs
  refine ⟨h4, fun gname v => ?_⟩
  simp [deliver_valid, h4]

/-- Witness for the amended C4: the full cycle over `mA` ends back in the
handler-free initial state, where confirmations are inert. -/
theorem handlers_all_removed_at_cycle_end_witness :
    initial_state.handlers = []
    ∧ ∀ gname v, deliver_valid gname v initial_state
        = some (initial_state, []) :=
  handlers_all_removed_at_cycle_end mA 1 initial_state initial_state trA
    (by decide)

/-- C5 counterexample: a `game_starting` arriving while a cycle is in flight
(token `1` held, queue non-empty) replaces the held token with the new token
`2` and issues no `clear()` for token `1` — the in-flight cycle's token and
queue are disturbed. -/
theorem game_starting_midcycle_replaces_token :
    sMid.queue = some 1
    ∧ (game_starting mA 2 sMid).map (fun r => (r.1.queue, r.2))
        = some (some 2, [Cmd.queueWait 2, Cmd.setValue ("a") 0]) := by decide

/-- C5 amended: there is no reentrancy guard — `game_starting` always
overwrites the held token with the new one and rebuilds the reset queue from
the configured groups, and (when any group is configured) issues no `clear()`
at all, so an interrupted cycle's token is abandoned without ever being
cleared; exclusion of overlapping cycles rests on the event source firing
`game_starting` once per game start. -/
theorem game_starting_unconditionally_overwrites (m : Machine) (tok : Nat)
    (s s' : ControllerState) (tr : List Cmd)
    (h : game_starting m tok s = some (s', tr))
    (hne : m.score_reel_groups ≠ []) :
    s'.queue = some tok
    ∧ s'.reset_queue = (sortByName m.score_reel_groups).tail
    ∧ ∀ t, Cmd.queueClear t ∉ tr := by
  rcases hs : sortByName m.score_reel_groups with _ | ⟨g, rest⟩
  · have hperm : List.Perm (sortByName m.score_reel_groups) m.score_reel_groups :=
      List.perm_insertionSort nameLe m.score_reel_groups
    rw [hs] at hperm
    exact absurd hperm.symm.eq_nil hne
  · simp only [game_starting, reset_next_group, hs] at h
    simp only [Option.map_some', Option.some.injEq, Prod.mk.injEq] at h
    obtain ⟨h1, h2⟩ := h
    subst h1
    subst h2
    refine ⟨rfl, rfl, ?_⟩
    intro t
    simp

/-- Witness for the amended C5 at the concrete mid-cycle interruption. -/
theorem game_starting_unconditionally_overwrites_witness :
    sC5.queue = some 2
    ∧ sC5.reset_queue = (sortByName mA.score_reel_groups).tail
    ∧ ∀ t, Cmd.queueClear t ∉ trC5 :=
  game_starting_unconditionally_overwrites mA 2 sMid sC5 trC5
    (by decide) (by decide)

/-- C6 (code bug): with no group tagged `player1` and an empty map, binding
the first player does not pick a first-available group as the method's own
docstring promises; the fallback evaluates `player_to_scorereel_map[0]` on an
empty list and raises `IndexError` (`none`), so `rotate_player` fails too. -/
theorem first_player_without_tag_raises :
    map_new_score_reel_group mC6 initial_state = none
    ∧ rotate_player mC6 initial_state = none := by decide

/-- C7: a score-change notification with a zero delta, or one arriving while
no score reel group is active, performs no device operation — no `add_value`
and no command at all (the handler touches no controller field either). -/
theorem score_change_zero_or_no_active_is_noop (value change : Int)
    (s : ControllerState)
    (h : change = 0 ∨ s.active_scorereelgroup = none) :
    score_change value change s = [] := by
  rcases h with h | h
  · subst h
    unfold score_change
    cases s.active_scorereelgroup <;> simp
  · simp [score_change, h]

/-- Witness for C7: delta `0` with an active group issues nothing. -/
theorem score_change_zero_or_no_active_is_noop_witness :
    score_change 5 0 sW7 = [] :=
  score_change_zero_or_no_active_is_noop 5 0 sW7 (Or.inl rfl)

/-- C8: after a successful turn-start rotation with active group `a`,
`set_value(player_score)` is issued on `a` exactly when `a`'s assumed value
differs from the player's stored score (no `set_value` at all otherwise), and
the trace's lighting effect leaves the active group lit and every other
configured group unlit, whatever was lit before. -/
theorem rotate_player_syncs_score_and_lights_active
    (m : Machine) (s s' : ControllerState) (tr : List Cmd) (a : Group)
    (h : rotate_player m s = some (s', tr))
    (ha : s'.active_scorereelgroup = some a) :
    (a.assumed_value_int ≠ m.player_score →
        Cmd.setValue a.name m.player_score ∈ tr)
    ∧ (a.assumed_value_int = m.player_score → ∀ g v, Cmd.setValue g v ∉ tr)
    ∧ (∀ f, apply_light tr f a.name = true)
    ∧ (∀ f g, g ∈ m.score_reel_groups → g.name ≠ a.name →
        apply_light tr f g.name = false) := by
  unfold rotate_player at h
  rcases hm : (if s.player_to_scorereel_map.length < m.player_list_len
      then map_new_score_reel_group m s else some s) with _ | s1 <;>
    rw [hm] at h
  · exact absurd h (by simp)
  · rw [Option.some_bind] at h
    rcases hget : s1.player_to_scorereel_map[m.player_index]? with _ | active <;>
      rw [hget] at h
    · exact absurd h (by simp)
    · simp only [Option.map_some', Option.some.injEq, Prod.mk.injEq] at h
      obtain ⟨h1, h2⟩ := h
      have hact : active = a := by
        rw [← h1] at ha
        simpa using ha
      subst hact
      subst h2
      refine ⟨?_, ?_, ?_, ?_⟩
      · intro hne
        simp [hne]
      · intro heq
        intro g v
        simp [heq]
      · intro f
        rw [apply_light_append, apply_light_append]
        simp [apply_light]
      · intro f g hg hne
        rw [apply_light_append, apply_light_append]
        simp only [apply_light]
        rw [if_neg hne, apply_light_unlights]
        have hmem : g.name ∈ m.score_reel_groups.map (fun g => g.name) :=
          List.mem_map_of_mem _ hg
        simp [hmem]

/-- Witness for C8: player 1's turn with stored score 5 syncs group `"a"`
from 0 to 5, lights `"a"` and leaves `"b"` unlit. -/
theorem rotate_player_syncs_score_and_lights_active_witness :
    (ga.assumed_value_int ≠ mW8.player_score →
        Cmd.setValue ga.name mW8.player_score ∈ trW8)
    ∧ (ga.assumed_value_int = mW8.player_score → ∀ g v, Cmd.setValue g v ∉ trW8)
    ∧ (∀ f, apply_light trW8 f ga.name = true)
    ∧ (∀ f g, g ∈ mW8.score_reel_groups → g.name ≠ ga.name →
        apply_light trW8 f g.name = false) :=
  rotate_player_syncs_score_and_lights_active mW8 sW8 sW8' trW8 ga
    (by decide) (by decide)

/-- C9 (spec-modelled): a trough holding two balls, both available; `eject()`
immediately reserves one ball (`available_balls` drops to 1, `balls` stays 2),
and once the simulated transit delay elapses the ball is physically gone
(`balls` drops to 1, `available_balls` stays 1); `available_balls ≤ balls` at
every observed point. -/
theorem trough_eject_reserves_then_departs :
    trough2.balls = 2 ∧ trough2.available_balls = 2
    ∧ (eject trough2).balls = 2 ∧ (eject trough2).available_balls = 1
    ∧ (transit_delay (eject trough2)).balls = 1
    ∧ (transit_delay (eject trough2)).available_balls = 1
    ∧ trough2.available_balls ≤ trough2.balls
    ∧ (eject trough2).available_balls ≤ (eject trough2).balls
    ∧ (transit_delay (eject trough2)).available_balls
        ≤ (transit_delay (eject trough2)).balls := by decide

/-- C10: only the cycle's first reset command is hard-coded to zero —
`game_starting` commands the first (name-least) group to `0`, while a command
issued from the confirmation handler targets the payload value carried by the
confirmation event, so a nonzero payload propagates to the next device. -/
theorem next_reset_command_targets_confirmation_payload :
    (∀ (m : Machine) (tok : Nat) (s s' : ControllerState) (tr : List Cmd)
        (g : Group) (rest : List Group),
        sortByName m.score_reel_groups = g :: rest →
        game_starting m tok s = some (s', tr) →
        tr = [Cmd.queueWait tok, Cmd.setValue g.name 0])
    ∧ (∀ (v : Int) (n : String) (s s' : ControllerState) (tr : List Cmd)
        (g : Group) (rest : List Group),
        s.reset_queue = g :: rest → valid_event n ∈ s.handlers →
        deliver_valid n v s = some (s', tr) →
        tr = [Cmd.setValue g.name v]) := by
  constructor
  · intro m tok s s' tr g rest hs h
    simp only [game_starting, reset_next_group, hs] at h
    simp only [Option.map_some', Option.some.injEq, Prod.mk.injEq] at h
    exact h.2.symm
  · intro v n s s' tr g rest hq hmem h
    unfold deliver_valid at h
    rw [if_pos hmem] at h
    simp only [reset_next_group, hq] at h
    simp only [Option.some.injEq, Prod.mk.injEq] at h
    exact h.2.symm

/-- Witness for C10: `"a"`'s confirmation carrying payload `7` commands the
next group `"b"` to `7`, not `0`. -/
theorem next_reset_command_targets_confirmation_payload_witness :
    trW10 = [Cmd.setValue gb.name 7] :=
  next_reset_command_targets_confirmation_payload.2 7 ("a") sMid sW10 trW10
    gb [gc] (by decide) (by decide) (by decide)

end Mpf
